import Mathlib

/-!
Verification development for the MacroMorphFX audio plugin core.

The C++ sources are shallowly embedded: float arithmetic is modelled by
exact real arithmetic, fixed-size C arrays by functions out of Fin types,
and stateful modules by explicit state-passing functions.  Each definition
mirrors one function of the sources (SceneData.h, MacroEngine.h, the
delay module, and the processor's scene-bank operations).
-/

/-- std::clamp on floats: (v < lo) ? lo : (hi < v) ? hi : v. -/
noncomputable def clampF (v lo hi : ℝ) : ℝ :=
  if v < lo then lo else if hi < v then hi else v

/-- Truncation of a float to int, as a C++ static_cast (rounds toward zero). -/
noncomputable def intTrunc (x : ℝ) : Int :=
  if x < 0 then ⌈x⌉ else ⌊x⌋

/-- Metadata for one scene parameter (SceneParam::Info in SceneData.h).
The string id is omitted; fields are addressed by index throughout. -/
structure SPInfo where
  minVal : ℝ
  maxVal : ℝ
  defaultVal : ℝ
  isDiscrete : Bool

/-- The canonical info table (SceneParam::info), order matching the
SceneParam::Index enum: filtMode, filtCutoff, filtReso, driveAmt,
driveTone, delaySync, delayFb, delayTone, delayWidth, delayPingP,
revSize, revDamp, revPreDelay, revWidth. -/
noncomputable def sceneInfo (i : Fin 14) : SPInfo :=
  match i.val with
  | 0  => ⟨0, 2, 0, true⟩
  | 1  => ⟨20, 20000, 8000, false⟩
  | 2  => ⟨0, 1, 0.2, false⟩
  | 3  => ⟨0, 1, 0, false⟩
  | 4  => ⟨0, 1, 0.5, false⟩
  | 5  => ⟨0, 7, 2, true⟩
  | 6  => ⟨0, 0.95, 0.25, false⟩
  | 7  => ⟨0, 1, 0.5, false⟩
  | 8  => ⟨0, 1, 0.7, false⟩
  | 9  => ⟨0, 1, 0, true⟩
  | 10 => ⟨0, 1, 0.35, false⟩
  | 11 => ⟨0, 1, 0.5, false⟩
  | 12 => ⟨0, 200, 10, false⟩
  | _  => ⟨0, 1, 0.8, false⟩

/-- A scene snapshot: the 14 parameter values (struct SceneParams). -/
@[ext]
structure SceneParams where
  values : Fin 14 → ℝ

/-- SceneParams::createDefault — every value from the canonical defaults. -/
noncomputable def SceneParams.createDefault : SceneParams :=
  ⟨fun i => (sceneInfo i).defaultVal⟩

/-- SceneParams::morph — discrete params take a's value when t < 0.5 and
b's otherwise; continuous params are linearly interpolated a + t*(b-a). -/
noncomputable def SceneParams.morph (a b : SceneParams) (t : ℝ) : SceneParams :=
  ⟨fun i =>
    if (sceneInfo i).isDiscrete = true then
      (if t < 0.5 then a.values i else b.values i)
    else
      a.values i + t * (b.values i - a.values i)⟩

/-- SceneParams::clampToRanges — every value forced into its field range. -/
noncomputable def SceneParams.clampToRanges (p : SceneParams) : SceneParams :=
  ⟨fun i => clampF (p.values i) (sceneInfo i).minVal (sceneInfo i).maxVal⟩

/-- A scene value lies in its field's valid range. -/
def inRange (p : SceneParams) : Prop :=
  ∀ i : Fin 14, (sceneInfo i).minVal ≤ p.values i ∧ p.values i ≤ (sceneInfo i).maxVal

/-- The whole 8-slot scene bank satisfies the range invariant. -/
def bankInRange (bank : Fin 8 → SceneParams) : Prop :=
  ∀ s : Fin 8, inRange (bank s)

-- Basic facts about the info table, proved by case analysis on the index.

lemma sceneInfo_min_le_max (i : Fin 14) : (sceneInfo i).minVal ≤ (sceneInfo i).maxVal := by
  fin_cases i <;> norm_num [sceneInfo]

lemma sceneInfo_default_mem (i : Fin 14) :
    (sceneInfo i).minVal ≤ (sceneInfo i).defaultVal ∧
      (sceneInfo i).defaultVal ≤ (sceneInfo i).maxVal := by
  fin_cases i <;> norm_num [sceneInfo]

lemma clampF_mem {lo hi : ℝ} (v : ℝ) (h : lo ≤ hi) :
    lo ≤ clampF v lo hi ∧ clampF v lo hi ≤ hi := by
  unfold clampF
  split
  · exact ⟨le_refl lo, h⟩
  · split
    · exact ⟨h, le_refl hi⟩
    · constructor <;> linarith [not_lt.mp (by assumption : ¬ v < lo)]

lemma createDefault_inRange : inRange SceneParams.createDefault := by
  intro i
  simpa [SceneParams.createDefault] using sceneInfo_default_mem i

-- ── Macro engine (MacroEngine.h) ───────────────────────────────────────────

/-- Macro response curve kinds (enum class MacroCurve). -/
inductive MacroCurve where
  | linear
  | exponential
  | logarithmic
  | sCurve
deriving DecidableEq

/-- applyMacroCurve — clamp the input to 0..1 and apply the curve shape. -/
noncomputable def applyMacroCurve (x0 : ℝ) (curve : MacroCurve) : ℝ :=
  let x := clampF x0 0 1
  match curve with
  | .exponential => x * x
  | .logarithmic => Real.sqrt x
  | .sCurve => x * x * (3 - 2 * x)
  | .linear => x

/-- One macro mapping target (struct MacroTarget). -/
structure MacroTarget where
  sceneParamIndex : Int
  amount : ℝ
  curve : MacroCurve

/-- The body of the inner loop of MacroEngine::apply for one target:
skip out-of-range indices, skip discrete params, otherwise add the
curved, weighted offset and clamp into the field's range. -/
noncomputable def applyOneTarget (rawMacroVal : ℝ) (params : SceneParams)
    (target : MacroTarget) : SceneParams :=
  if h : target.sceneParamIndex < 0 ∨ 14 ≤ target.sceneParamIndex then params
  else
    let i : Fin 14 := ⟨target.sceneParamIndex.toNat, by omega⟩
    if (sceneInfo i).isDiscrete = true then params
    else
      let curvedVal := applyMacroCurve rawMacroVal target.curve
      let range := (sceneInfo i).maxVal - (sceneInfo i).minVal
      let offset := curvedVal * target.amount * range
      ⟨Function.update params.values i
        (clampF (params.values i + offset) (sceneInfo i).minVal (sceneInfo i).maxVal)⟩

/-- Walk one macro's target list in order (inner loop of MacroEngine::apply). -/
noncomputable def applyMacroTargets (rawMacroVal : ℝ) (params : SceneParams)
    (targets : List MacroTarget) : SceneParams :=
  targets.foldl (applyOneTarget rawMacroVal) params

/-- One iteration of the outer loop of MacroEngine::apply: a macro whose
raw value is below 0.001 contributes nothing. -/
noncomputable def applyMacroStep (mappings : Fin 4 → List MacroTarget)
    (macroValues : Fin 4 → ℝ) (m : Fin 4) (params : SceneParams) : SceneParams :=
  if macroValues m < 0.001 then params
  else applyMacroTargets (macroValues m) params (mappings m)

/-- MacroEngine::apply — the outer loop over the four macros, unrolled. -/
noncomputable def MacroEngine.apply (mappings : Fin 4 → List MacroTarget)
    (params : SceneParams) (macroValues : Fin 4 → ℝ) : SceneParams :=
  applyMacroStep mappings macroValues 3
    (applyMacroStep mappings macroValues 2
      (applyMacroStep mappings macroValues 1
        (applyMacroStep mappings macroValues 0 params)))

-- ── Processor scene-bank operations (PluginProcessor) ──────────────────────

/-- MacroMorphFXProcessor::setSceneParam — bounds-check the indices and
store the given value verbatim into the addressed scene slot. -/
noncomputable def setSceneParam (bank : Fin 8 → SceneParams)
    (sceneIndex paramIndex : Int) (value : ℝ) : Fin 8 → SceneParams :=
  if h : 0 ≤ sceneIndex ∧ sceneIndex < 8 ∧ 0 ≤ paramIndex ∧ paramIndex < 14 then
    let s : Fin 8 := ⟨sceneIndex.toNat, by omega⟩
    let p : Fin 14 := ⟨paramIndex.toNat, by omega⟩
    Function.update bank s ⟨Function.update (bank s).values p value⟩
  else bank

/-- The scene-restoration loop of setStateInformation for one scene slot:
for each of the 14 parameters, if the persisted document carries an
attribute for it, overwrite the stored value with the document's value
(cast to float), else keep the previous value.  No clamping is applied. -/
noncomputable def restoreSceneValues (scene : SceneParams)
    (attrs : Fin 14 → Option ℝ) : SceneParams :=
  ⟨fun p =>
    match attrs p with
    | some v => v
    | none => scene.values p⟩

/-- std::clamp of the raw scene selector onto 0..kNumScenes-1, as done in
processBlock and storeCurrentToScene. -/
def sceneIdxClamp (x : Int) : Int :=
  if x < 0 then 0 else if 7 < x then 7 else x

/-- Decoding of an in-range persisted curve integer (static_cast<MacroCurve>). -/
def decodeCurve : Int → MacroCurve
  | 0 => .linear
  | 1 => .exponential
  | 2 => .logarithmic
  | _ => .sCurve

/-- The curve restoration of setStateInformation: the persisted integer is
clamped to 0..kCount-1 before the cast to MacroCurve. -/
def loadCurve (curveInt : Int) : MacroCurve :=
  decodeCurve (if curveInt < 0 then 0 else if 3 < curveInt then 3 else curveInt)

-- ── Delay module (DelayModule, Source/DSP) ─────────────────────────────────

/-- State of one juce::dsp::StateVariableTPTFilter channel as used for the
delay feedback tone filter (lowpass).  The coefficient g is derived from
the stored cutoff as tan(pi * cutoff / sampleRate) and R2 as 1/resonance,
following the TPT structure of the JUCE implementation. -/
structure TPTFilter where
  sampleRate : ℝ
  cutoff : ℝ
  resonance : ℝ
  s1 : ℝ
  s2 : ℝ

/-- One lowpass processSample step of the TPT state-variable filter:
returns the updated filter state and the lowpass output. -/
noncomputable def TPTFilter.processSample (f : TPTFilter) (x : ℝ) : TPTFilter × ℝ :=
  let g := Real.tan (Real.pi * f.cutoff / f.sampleRate)
  let R2 := 1 / f.resonance
  let h := 1 / (1 + R2 * g + g * g)
  let yHP := h * (x - f.s1 * (g + R2) - f.s2)
  let yBP := yHP * g + f.s1
  let s1n := yHP * g + yBP
  let yLP := yBP * g + f.s2
  let s2n := yBP * g + yLP
  (⟨f.sampleRate, f.cutoff, f.resonance, s1n, s2n⟩, yLP)

/-- setCutoffFrequency on the tone filter. -/
noncomputable def TPTFilter.setCutoff (f : TPTFilter) (fc : ℝ) : TPTFilter :=
  ⟨f.sampleRate, fc, f.resonance, f.s1, f.s2⟩

/-- State of a juce::SmoothedValue with linear ramping, as used for the
shared delay time: current value, target, per-sample step and the number
of remaining ramp samples; rampSamples is the configured ramp length. -/
structure Smoother where
  current : ℝ
  target : ℝ
  step : ℝ
  countdown : Nat
  rampSamples : Nat

/-- getNextValue: when not smoothing the value holds at the target;
otherwise advance by one step (reaching the target on the last step). -/
noncomputable def Smoother.getNextValue (s : Smoother) : Smoother × ℝ :=
  match s.countdown with
  | 0 => (s, s.target)
  | 1 => (⟨s.target, s.target, s.step, 0, s.rampSamples⟩, s.target)
  | Nat.succ n =>
      (⟨s.current + s.step, s.target, s.step, n, s.rampSamples⟩, s.current + s.step)

/-- setTargetValue: set a new target and restart the ramp toward it. -/
noncomputable def Smoother.setTargetValue (s : Smoother) (v : ℝ) : Smoother :=
  if v = s.target then s
  else ⟨s.current, v, (v - s.current) / (s.rampSamples : ℝ), s.rampSamples, s.rampSamples⟩

/-- DelayModule state: stereo circular buffers with independent write
cursors, feedback/width/ping-pong parameters, per-channel tone filter,
and the shared smoothed delay time. -/
structure DelayState where
  sampleRate : ℝ
  bufSize : Int
  delayLine : Fin 2 → Int → ℝ
  writePos : Fin 2 → Int
  fb : ℝ
  width : ℝ
  isPingPong : Bool
  toneLPF : Fin 2 → TPTFilter
  smoothDelay : Smoother

/-- The opposite stereo channel (int otherCh = 1 - ch). -/
def otherChan (ch : Fin 2) : Fin 2 := ⟨1 - ch.val, by omega⟩

/-- The note-value table of DelayModule::setParameters: sync index to
note duration in beats. -/
noncomputable def noteBeats : Int → ℝ
  | 0 => 0.125
  | 1 => 0.25
  | 2 => 0.5
  | 3 => 1
  | 4 => 2
  | 5 => 4
  | 6 => 0.75
  | _ => 1.5

/-- DelayModule::prepare — allocate 2 seconds of buffer, reset cursors,
configure the tone filters (20 kHz cutoff, 0.707 resonance) and the 50 ms
delay-time smoother starting from a quarter of the buffer. -/
noncomputable def DelayModule.prepare (sr : ℝ) : DelayState :=
  let bufSize := intTrunc (sr * 2)
  ⟨sr, bufSize, fun _ _ => 0, fun _ => 0, 0.25, 0.7, false,
   fun _ => ⟨sr, 20000, 0.707, 0, 0⟩,
   ⟨((bufSize / 4 : Int) : ℝ), ((bufSize / 4 : Int) : ℝ), 0, 0,
    (intTrunc (sr * 0.05)).toNat⟩⟩

/-- DelayModule::setParameters — clamp feedback to the 0.95 safety cap,
map the clamped sync index through the note table, compute the target
delay in samples from the (fallback-substituted) BPM, clamp it to the
buffer, retarget the smoother, and retune the tone filters. -/
noncomputable def DelayModule.setParameters (st : DelayState) (syncIndex : Int)
    (feedback tone01 width01 : ℝ) (pingPong : Bool) (bpm : ℝ) : DelayState :=
  let fb := min feedback 0.95
  let idx := if syncIndex < 0 then 0 else if 7 < syncIndex then 7 else syncIndex
  let beats := noteBeats idx
  let safeBpm := if 20 < bpm then bpm else 120
  let newDelay := clampF (beats * (60 / safeBpm) * st.sampleRate) 1 ((st.bufSize : ℝ) - 1)
  let toneCutoff := 500 * (40 : ℝ) ^ tone01
  ⟨st.sampleRate, st.bufSize, st.delayLine, st.writePos, fb, width01, pingPong,
   fun ch => (st.toneLPF ch).setCutoff toneCutoff,
   st.smoothDelay.setTargetValue newDelay⟩

/-- The fractional circular-buffer read of DelayModule::process: compute
the wrapped read position writePos - currentDelay and read with linear
interpolation between the two adjacent slots. -/
noncomputable def readDelayed (st : DelayState) (currentDelay : ℝ) (ch : Fin 2) : ℝ :=
  let readPosF0 := ((st.writePos ch : Int) : ℝ) - currentDelay
  let readPosF := if readPosF0 < 0 then readPosF0 + (st.bufSize : ℝ) else readPosF0
  let idx0a : Int := ⌊readPosF⌋
  let frac := readPosF - ⌊readPosF⌋
  let idx0b := if idx0a < 0 then idx0a + st.bufSize else idx0a
  let idx0 := if st.bufSize ≤ idx0b then idx0b - st.bufSize else idx0b
  let idx1 := if st.bufSize ≤ idx0 + 1 then 0 else idx0 + 1
  st.delayLine ch idx0 * (1 - frac) + st.delayLine ch idx1 * frac

/-- The per-channel body of DelayModule::process (stereo case): the tone
filter first processes the channel's own delayed sample; under ping-pong
the same filter then also processes the opposite channel's delayed sample
and that second output (scaled by the feedback coefficient) is used, else
the first output is used.  Input + feedback is written at the write
cursor, the width blend forms the wet sample, and the cursor advances. -/
noncomputable def delayChannelStep (input : ℝ) (delayed : Fin 2 → ℝ) (ch : Fin 2)
    (st : DelayState) : DelayState × ℝ :=
  let fres := (st.toneLPF ch).processSample (delayed ch)
  let res2 :=
    if st.isPingPong = true then
      let f2 := fres.1.processSample (delayed (otherChan ch))
      (f2.1, f2.2 * st.fb)
    else (fres.1, fres.2 * st.fb)
  let feedbackSample := res2.2
  let written := input + feedbackSample
  let newLine : Fin 2 → Int → ℝ := fun c pos =>
    if c = ch ∧ pos = st.writePos ch then written else st.delayLine c pos
  let wetSample :=
    if st.width < 1 then
      let monoDelay := (delayed ch + delayed (otherChan ch)) * 0.5
      monoDelay + st.width * (delayed ch - monoDelay)
    else delayed ch
  let out := input + wetSample
  let wp1 := st.writePos ch + 1
  let wp2 := if st.bufSize ≤ wp1 then 0 else wp1
  (⟨st.sampleRate, st.bufSize, newLine,
    fun c => if c = ch then wp2 else st.writePos c,
    st.fb, st.width, st.isPingPong,
    fun c => if c = ch then res2.1 else st.toneLPF c,
    st.smoothDelay⟩, out)

/-- One sample of DelayModule::process for two channels: advance the
shared smoothed delay once, read both channels' delayed samples before
any write, then run the channel bodies in order. -/
noncomputable def delaySampleStep (st : DelayState) (input : Fin 2 → ℝ) :
    DelayState × (Fin 2 → ℝ) :=
  let sres := st.smoothDelay.getNextValue
  let st1 : DelayState := ⟨st.sampleRate, st.bufSize, st.delayLine, st.writePos,
    st.fb, st.width, st.isPingPong, st.toneLPF, sres.1⟩
  let currentDelay := sres.2
  let delayed : Fin 2 → ℝ := fun ch => readDelayed st1 currentDelay ch
  let r0 := delayChannelStep (input 0) delayed 0 st1
  let r1 := delayChannelStep (input 1) delayed 1 r0.1
  (r1.1, fun ch => if ch = 0 then r0.2 else r1.2)

/-- The per-sample smoothed delay value used for this sample's reads. -/
noncomputable def delayCurrent (st : DelayState) : ℝ :=
  st.smoothDelay.getNextValue.2

/-- The delayed sample a channel reads at the start of a process sample. -/
noncomputable def delayedOf (st : DelayState) (ch : Fin 2) : ℝ :=
  readDelayed st (delayCurrent st) ch

-- ── Helper lemmas ──────────────────────────────────────────────────────────

lemma clampF_of_mem {x : ℝ} (h0 : 0 ≤ x) (h1 : x ≤ 1) : clampF x 0 1 = x := by
  unfold clampF
  rw [if_neg (not_lt.mpr h0), if_neg (not_lt.mpr h1)]

lemma Smoother.target_setTargetValue (s : Smoother) (v : ℝ) :
    (s.setTargetValue v).target = v := by
  unfold Smoother.setTargetValue
  split
  · exact (by assumption : v = s.target).symm
  · rfl

-- ── Claims ─────────────────────────────────────────────────────────────────

/-- C2: the discrete fields are exactly filter mode (0), delay sync (5) and
ping-pong (9), and for every discrete field morph returns a's value when
t < 0.5 and b's value otherwise, so the tie at t = 0.5 resolves to b. -/
theorem c2_discrete_morph_threshold (i : Fin 14) :
    ((sceneInfo i).isDiscrete = true ↔ (i = 0 ∨ i = 5 ∨ i = 9)) ∧
    ∀ (a b : SceneParams) (t : ℝ), (sceneInfo i).isDiscrete = true →
      ((t < 0.5 → (SceneParams.morph a b t).values i = a.values i) ∧
       (0.5 ≤ t → (SceneParams.morph a b t).values i = b.values i)) := by
  constructor
  · fin_cases i <;> simp [sceneInfo]
  · intro a b t hd
    constructor
    · intro ht
      simp [SceneParams.morph, hd, ht]
    · intro ht
      have hnlt : ¬ t < 0.5 := not_lt.mpr ht
      simp [SceneParams.morph, hd, hnlt]

/-- Witness for C2: morphing the default scene toward a scene whose delay
sync value is 5, at exactly t = 0.5, yields b's value 5. -/
theorem c2_witness :
    (SceneParams.morph SceneParams.createDefault ⟨fun _ => 5⟩ 0.5).values 5 = 5 := by
  have h := (c2_discrete_morph_threshold 5).2 SceneParams.createDefault ⟨fun _ => 5⟩ 0.5
    (by norm_num [sceneInfo])
  exact h.2 (by norm_num)

/-- C3: for continuous fields morph computes a + t*(b-a) in the native
unit, so both endpoints are exact: morph(a,b,0) = a and morph(a,b,1) = b
(exact equality in the exact-arithmetic model of float math). -/
theorem c3_continuous_morph_endpoints (a b : SceneParams) (i : Fin 14)
    (hc : (sceneInfo i).isDiscrete = false) :
    (∀ t : ℝ, (SceneParams.morph a b t).values i =
        a.values i + t * (b.values i - a.values i)) ∧
    (SceneParams.morph a b 0).values i = a.values i ∧
    (SceneParams.morph a b 1).values i = b.values i := by
  have hnd : ¬ (sceneInfo i).isDiscrete = true := by simp [hc]
  refine ⟨fun t => by simp [SceneParams.morph, hnd], ?_, ?_⟩
  · simp [SceneParams.morph, hnd]
  · simp [SceneParams.morph, hnd]

/-- Witness for C3: the cutoff field (index 1, continuous) at t = 1 lands
exactly on b's value. -/
theorem c3_witness :
    (SceneParams.morph SceneParams.createDefault ⟨fun _ => 100⟩ 1).values 1 = 100 := by
  have h := c3_continuous_morph_endpoints SceneParams.createDefault ⟨fun _ => 100⟩ 1
    (by norm_num [sceneInfo])
  exact h.2.2

/-- The curve shapes exactly as the specification words them. -/
noncomputable def specCurveShape (x : ℝ) : MacroCurve → ℝ
  | .linear => x
  | .exponential => x ^ 2
  | .logarithmic => Real.sqrt x
  | .sCurve => 3 * x ^ 2 - 2 * x ^ 3

/-- C4: applyMacroCurve clamps its input to 0..1 and then computes the
documented shape for each kind; every kind maps 0 to 0 and 1 to 1 and is
monotone non-decreasing on 0..1. -/
theorem c4_curve_properties (c : MacroCurve) :
    (∀ x : ℝ, applyMacroCurve x c = specCurveShape (clampF x 0 1) c) ∧
    applyMacroCurve 0 c = 0 ∧
    applyMacroCurve 1 c = 1 ∧
    (∀ x y : ℝ, 0 ≤ x → x ≤ y → y ≤ 1 → applyMacroCurve x c ≤ applyMacroCurve y c) := by
  have h0 : clampF (0:ℝ) 0 1 = 0 := clampF_of_mem le_rfl zero_le_one
  have h1 : clampF (1:ℝ) 0 1 = 1 := clampF_of_mem zero_le_one le_rfl
  refine ⟨?_, ?_, ?_, ?_⟩
  · intro x
    cases c <;> simp [applyMacroCurve, specCurveShape] <;> ring
  · cases c <;> simp [applyMacroCurve, h0]
  · cases c <;> norm_num [applyMacroCurve, h1]
  · intro x y hx hxy hy1
    have hx1 : x ≤ 1 := hxy.trans hy1
    have hy0 : 0 ≤ y := hx.trans hxy
    have ex : clampF x 0 1 = x := clampF_of_mem hx hx1
    have ey : clampF y 0 1 = y := clampF_of_mem hy0 hy1
    cases c with
    | linear => simpa [applyMacroCurve, ex, ey] using hxy
    | exponential =>
        simp only [applyMacroCurve, ex, ey]
        exact mul_le_mul hxy hxy hx hy0
    | logarithmic =>
        simp only [applyMacroCurve, ex, ey]
        exact Real.sqrt_le_sqrt hxy
    | sCurve =>
        simp only [applyMacroCurve, ex, ey]
        nlinarith [sub_nonneg.mpr hxy, mul_nonneg hx (sub_nonneg.mpr hx1),
          mul_nonneg hy0 (sub_nonneg.mpr hy1), mul_nonneg hx (sub_nonneg.mpr hy1),
          mul_nonneg hy0 (sub_nonneg.mpr hx1)]

/-- Witness for C4: the s-curve is monotone between 1/4 and 1/2. -/
theorem c4_witness :
    applyMacroCurve (1/4) MacroCurve.sCurve ≤ applyMacroCurve (1/2) MacroCurve.sCurve :=
  (c4_curve_properties MacroCurve.sCurve).2.2.2 (1/4) (1/2)
    (by norm_num) (by norm_num) (by norm_num)

/-- C6: a macro whose raw value is below 0.001 contributes nothing, and
apply with all four macro values below 0.001 (in particular all zero)
leaves the scene state exactly unchanged, for every mapping configuration. -/
theorem c6_zero_macros_noop (mappings : Fin 4 → List MacroTarget)
    (macroValues : Fin 4 → ℝ) (params : SceneParams) :
    (∀ (m : Fin 4) (p : SceneParams), macroValues m < 0.001 →
      applyMacroStep mappings macroValues m p = p) ∧
    ((∀ m : Fin 4, macroValues m < 0.001) →
      MacroEngine.apply mappings params macroValues = params) := by
  have hstep : ∀ (m : Fin 4) (p : SceneParams), macroValues m < 0.001 →
      applyMacroStep mappings macroValues m p = p := by
    intro m p hm
    simp [applyMacroStep, hm]
  refine ⟨hstep, fun hall => ?_⟩
  unfold MacroEngine.apply
  rw [hstep 0 params (hall 0), hstep 1 params (hall 1),
      hstep 2 params (hall 2), hstep 3 params (hall 3)]

/-- Witness for C6: applying all-zero macros over a nonempty mapping to
the default scene returns the default scene unchanged. -/
theorem c6_witness :
    MacroEngine.apply (fun _ => [⟨1, 1, MacroCurve.linear⟩])
        SceneParams.createDefault (fun _ => 0) = SceneParams.createDefault :=
  (c6_zero_macros_noop (fun _ => [⟨1, 1, MacroCurve.linear⟩])
    (fun _ => 0) SceneParams.createDefault).2 (fun _ => by norm_num)

/-- C5: targets are folded in list order, each continuous target adding
curve(macro)*weight*(max-min) to the running value and clamping into the
field range (shown on two successive cutoff targets), and the concrete
scenario: weight 0.5, Exponential curve, macro value 0.5 on cutoff gives
curved 0.25 and offset 0.25*0.5*19980 = 2497.5 added to the base cutoff,
clamped into 20..20000. -/
theorem c5_macro_target_formula (p : SceneParams) (v a1 a2 : ℝ) (c1 c2 : MacroCurve)
    (mappings : Fin 4 → List MacroTarget) (mv : Fin 4 → ℝ) :
    ((applyMacroTargets v p [⟨1, a1, c1⟩, ⟨1, a2, c2⟩]).values 1 =
        clampF (clampF (p.values 1 + applyMacroCurve v c1 * a1 * 19980) 20 20000
            + applyMacroCurve v c2 * a2 * 19980) 20 20000) ∧
    (mappings 0 = [⟨1, 0.5, MacroCurve.exponential⟩] →
     mv 0 = 0.5 → mv 1 = 0 → mv 2 = 0 → mv 3 = 0 →
     MacroEngine.apply mappings p mv =
       ⟨Function.update p.values 1 (clampF (p.values 1 + 2497.5) 20 20000)⟩) := by
  have hidx : ¬ ((1:Int) < 0 ∨ 14 ≤ (1:Int)) := by norm_num
  have hone : ∀ (v0 w : ℝ) (c : MacroCurve) (q : SceneParams),
      applyOneTarget v0 q ⟨1, w, c⟩ =
        ⟨Function.update q.values 1
          (clampF (q.values 1 + applyMacroCurve v0 c * w * 19980) 20 20000)⟩ := by
    intro v0 w c q
    unfold applyOneTarget
    rw [dif_neg hidx]
    norm_num [sceneInfo]
  constructor
  · show (applyOneTarget v (applyOneTarget v p ⟨1, a1, c1⟩) ⟨1, a2, c2⟩).values 1 = _
    rw [hone, hone]
    simp
  · intro hmap h0 h1 h2 h3
    have hv : ¬ mv 0 < 0.001 := by rw [h0]; norm_num
    unfold MacroEngine.apply
    rw [show applyMacroStep mappings mv 0 p =
          applyMacroTargets (mv 0) p (mappings 0) from if_neg hv]
    rw [hmap, h0]
    show applyMacroStep mappings mv 3 (applyMacroStep mappings mv 2
      (applyMacroStep mappings mv 1 (applyOneTarget 0.5 p ⟨1, 0.5, MacroCurve.exponential⟩))) = _
    have hs1 : ∀ q, applyMacroStep mappings mv 1 q = q :=
      fun q => if_pos (by rw [h1]; norm_num)
    have hs2 : ∀ q, applyMacroStep mappings mv 2 q = q :=
      fun q => if_pos (by rw [h2]; norm_num)
    have hs3 : ∀ q, applyMacroStep mappings mv 3 q = q :=
      fun q => if_pos (by rw [h3]; norm_num)
    rw [hs3, hs2, hs1, hone]
    have hcurve : applyMacroCurve 0.5 MacroCurve.exponential = 0.25 := by
      have hc : clampF (0.5:ℝ) 0 1 = 0.5 := clampF_of_mem (by norm_num) (by norm_num)
      simp [applyMacroCurve, hc]
      norm_num
    rw [hcurve]
    norm_num

/-- Witness for C5: on the default scene (cutoff 8000) the scenario lands
at 8000 + 2497.5 = 10497.5, inside the range so the clamp is inert. -/
theorem c5_witness :
    (MacroEngine.apply (fun m => if m = 0 then [⟨1, 0.5, MacroCurve.exponential⟩] else [])
        SceneParams.createDefault (fun m => if m = 0 then 0.5 else 0)).values 1 = 10497.5 := by
  have h := (c5_macro_target_formula SceneParams.createDefault 0 0 0
      MacroCurve.linear MacroCurve.linear
      (fun m => if m = 0 then [⟨1, 0.5, MacroCurve.exponential⟩] else [])
      (fun m => if m = 0 then 0.5 else 0)).2
      (by simp) (by simp) (by simp) (by simp) (by simp)
  rw [h]
  have hd : SceneParams.createDefault.values 1 = 8000 := by
    norm_num [SceneParams.createDefault, sceneInfo]
  simp [hd]
  unfold clampF
  norm_num

/-- C7: DelayModule::setParameters hard-caps the stored feedback
coefficient at 0.95 for every requested value, and the coefficient still
in effect after processing a sample never exceeds 0.95 either. -/
theorem c7_feedback_cap (st : DelayState) (syncIndex : Int)
    (feedback tone01 width01 : ℝ) (pingPong : Bool) (bpm : ℝ)
    (input : Fin 2 → ℝ) :
    (DelayModule.setParameters st syncIndex feedback tone01 width01 pingPong bpm).fb ≤ 0.95 ∧
    (delaySampleStep (DelayModule.setParameters st syncIndex feedback tone01 width01
        pingPong bpm) input).1.fb ≤ 0.95 := by
  have hfb : (DelayModule.setParameters st syncIndex feedback tone01 width01
      pingPong bpm).fb = min feedback 0.95 := rfl
  have hcap : (DelayModule.setParameters st syncIndex feedback tone01 width01
      pingPong bpm).fb ≤ 0.95 := by rw [hfb]; exact min_le_right _ _
  refine ⟨hcap, ?_⟩
  have hkeep : ∀ (st2 : DelayState) (inp : Fin 2 → ℝ),
      (delaySampleStep st2 inp).1.fb = st2.fb := by
    intro st2 inp
    rfl
  rw [hkeep]
  exact hcap

/-- C8: setParameters maps sync indices 0..7 to the beat table
0.125, 0.25, 0.5, 1, 2, 4, 0.75, 1.5, computes the target delay as
beats * (60/bpm) * sampleRate clamped to 1..capacity-1, substitutes
bpm = 120 whenever the supplied bpm is at most 20, and in particular
sync index 3 at 120 BPM and 48 kHz gives exactly 24000 samples. -/
theorem c8_delay_time_computation (st : DelayState) (syncIndex : Int)
    (feedback tone01 width01 : ℝ) (pingPong : Bool) (bpm : ℝ) :
    (noteBeats 0 = 0.125 ∧ noteBeats 1 = 0.25 ∧ noteBeats 2 = 0.5 ∧ noteBeats 3 = 1 ∧
     noteBeats 4 = 2 ∧ noteBeats 5 = 4 ∧ noteBeats 6 = 0.75 ∧ noteBeats 7 = 1.5) ∧
    (0 ≤ syncIndex → syncIndex ≤ 7 → 20 < bpm →
      (DelayModule.setParameters st syncIndex feedback tone01 width01
          pingPong bpm).smoothDelay.target =
        clampF (noteBeats syncIndex * (60 / bpm) * st.sampleRate) 1 ((st.bufSize : ℝ) - 1)) ∧
    (bpm ≤ 20 →
      (DelayModule.setParameters st syncIndex feedback tone01 width01
          pingPong bpm).smoothDelay.target =
        clampF (noteBeats (if syncIndex < 0 then 0 else if 7 < syncIndex then 7 else syncIndex)
            * (60 / 120) * st.sampleRate) 1 ((st.bufSize : ℝ) - 1)) ∧
    (DelayModule.setParameters (DelayModule.prepare 48000) 3 feedback tone01 width01
        pingPong 120).smoothDelay.target = 24000 := by
  have htarget : ∀ (st2 : DelayState) (i : Int) (b : ℝ),
      (DelayModule.setParameters st2 i feedback tone01 width01 pingPong b).smoothDelay.target =
        clampF (noteBeats (if i < 0 then 0 else if 7 < i then 7 else i)
            * (60 / (if 20 < b then b else 120)) * st2.sampleRate) 1 ((st2.bufSize : ℝ) - 1) := by
    intro st2 i b
    unfold DelayModule.setParameters
    exact Smoother.target_setTargetValue _ _
  refine ⟨⟨rfl, rfl, rfl, rfl, rfl, rfl, rfl, rfl⟩, ?_, ?_, ?_⟩
  · intro hi0 hi7 hbpm
    rw [htarget]
    rw [if_neg (not_lt.mpr hi0), if_neg (not_lt.mpr hi7), if_pos hbpm]
  · intro hbpm
    rw [htarget, if_neg (not_lt.mpr hbpm)]
  · rw [htarget]
    have hsr : (DelayModule.prepare 48000).sampleRate = 48000 := rfl
    have hbuf : (DelayModule.prepare 48000).bufSize = 96000 := by
      show intTrunc ((48000:ℝ) * 2) = 96000
      unfold intTrunc
      rw [if_neg (by norm_num : ¬ ((48000:ℝ) * 2) < 0)]
      rw [show ((48000:ℝ) * 2) = ((96000:Int) : ℝ) by norm_num]
      exact_mod_cast Int.floor_intCast 96000
    rw [hsr, hbuf]
    norm_num [noteBeats]
    unfold clampF
    norm_num

/-- Witness for C8: the formula branch instantiated at sync index 3,
250 BPM, on the prepared 48 kHz module: 1 beat * (60/250) s * 48000 Hz. -/
theorem c8_witness :
    (DelayModule.setParameters (DelayModule.prepare 48000) 3 0.3 0.5 0.7 false
        250).smoothDelay.target =
      clampF (noteBeats 3 * (60 / 250) * (DelayModule.prepare 48000).sampleRate) 1
        (((DelayModule.prepare 48000).bufSize : ℝ) - 1) :=
  (c8_delay_time_computation (DelayModule.prepare 48000) 3 0.3 0.5 0.7 false 250).2.1
    (by norm_num) (by norm_num) (by norm_num)

-- Range-preservation helpers for the scene bank invariant.

lemma scene_update_inRange (p : SceneParams) (i : Fin 14) (v : ℝ) (hp : inRange p)
    (hv : (sceneInfo i).minVal ≤ v ∧ v ≤ (sceneInfo i).maxVal) :
    inRange ⟨Function.update p.values i v⟩ := by
  intro j
  dsimp only
  rcases eq_or_ne j i with h | h
  · subst h
    rw [Function.update_same]
    exact hv
  · rw [Function.update_noteq h]
    exact hp j

lemma bank_update_inRange (bank : Fin 8 → SceneParams) (s : Fin 8) (q : SceneParams)
    (hbank : bankInRange bank) (hq : inRange q) : bankInRange (Function.update bank s q) := by
  intro s0
  rcases eq_or_ne s0 s with h | h
  · subst h
    rw [Function.update_same]
    exact hq
  · rw [Function.update_noteq h]
    exact hbank s0

lemma morph_inRange (a b : SceneParams) (t : ℝ) (ha : inRange a) (hb : inRange b)
    (ht0 : 0 ≤ t) (ht1 : t ≤ 1) : inRange (SceneParams.morph a b t) := by
  intro i
  obtain ⟨ha1, ha2⟩ := ha i
  obtain ⟨hb1, hb2⟩ := hb i
  unfold SceneParams.morph
  dsimp only
  by_cases hd : (sceneInfo i).isDiscrete = true
  · rw [if_pos hd]
    by_cases htl : t < 0.5
    · rw [if_pos htl]
      exact ⟨ha1, ha2⟩
    · rw [if_neg htl]
      exact ⟨hb1, hb2⟩
  · rw [if_neg hd]
    constructor <;>
      nlinarith [mul_nonneg (sub_nonneg.mpr ht1) (sub_nonneg.mpr ha1),
        mul_nonneg ht0 (sub_nonneg.mpr hb1),
        mul_nonneg (sub_nonneg.mpr ht1) (sub_nonneg.mpr ha2),
        mul_nonneg ht0 (sub_nonneg.mpr hb2)]

lemma applyOneTarget_inRange (v : ℝ) (p : SceneParams) (tgt : MacroTarget)
    (hp : inRange p) : inRange (applyOneTarget v p tgt) := by
  unfold applyOneTarget
  split
  · exact hp
  · dsimp only
    split
    · exact hp
    · exact scene_update_inRange p _ _ hp (clampF_mem _ (sceneInfo_min_le_max _))

lemma applyMacroTargets_inRange (v : ℝ) (ts : List MacroTarget) :
    ∀ p, inRange p → inRange (applyMacroTargets v p ts) := by
  induction ts with
  | nil => exact fun p hp => hp
  | cons t ts ih =>
      intro p hp
      show inRange (applyMacroTargets v (applyOneTarget v p t) ts)
      exact ih _ (applyOneTarget_inRange v p t hp)

lemma applyMacroStep_inRange (mappings : Fin 4 → List MacroTarget)
    (mv : Fin 4 → ℝ) (m : Fin 4) (p : SceneParams) (hp : inRange p) :
    inRange (applyMacroStep mappings mv m p) := by
  unfold applyMacroStep
  split
  · exact hp
  · exact applyMacroTargets_inRange _ _ p hp

lemma MacroEngine.apply_inRange (mappings : Fin 4 → List MacroTarget)
    (p : SceneParams) (mv : Fin 4 → ℝ) (hp : inRange p) :
    inRange (MacroEngine.apply mappings p mv) := by
  unfold MacroEngine.apply
  exact applyMacroStep_inRange _ _ _ _
    (applyMacroStep_inRange _ _ _ _
      (applyMacroStep_inRange _ _ _ _
        (applyMacroStep_inRange _ _ _ _ hp)))

/-- Counterexample for C1: starting from the all-defaults bank (which does
satisfy the invariant), a single setSceneParam call with the out-of-range
value 99999 for the cutoff field (range 20..20000) leaves the bank in a
state violating the invariant — the value is stored verbatim. -/
theorem c1_counterexample :
    bankInRange (fun _ => SceneParams.createDefault) ∧
    ¬ bankInRange (setSceneParam (fun _ => SceneParams.createDefault) 0 1 99999) := by
  refine ⟨fun _ => createDefault_inRange, fun hcon => ?_⟩
  have h2 := (hcon 0 1).2
  have hval : ((setSceneParam (fun _ => SceneParams.createDefault) 0 1 99999) 0).values 1
      = 99999 := by
    unfold setSceneParam
    rw [dif_pos (by norm_num)]
    simp [Function.update]
  rw [hval] at h2
  norm_num [sceneInfo] at h2

/-- C1 (amended): the scene-slot mutations store the values they are given
verbatim, so the bank invariant is preserved exactly when those values are
in range — setSceneParam with an in-range value keeps the bank invariant,
scene restoration with in-range attribute values keeps a scene in range,
and the morph-plus-macro recomputation stored by storeCurrentToScene is in
range whenever the source scenes are and the morph factor is in 0..1. -/
theorem c1_amended_in_range_writes :
    (∀ (bank : Fin 8 → SceneParams) (s pIdx : Int) (v : ℝ),
      bankInRange bank →
      (∀ j : Fin 14, (j.val : Int) = pIdx →
        (sceneInfo j).minVal ≤ v ∧ v ≤ (sceneInfo j).maxVal) →
      bankInRange (setSceneParam bank s pIdx v)) ∧
    (∀ (scene : SceneParams) (attrs : Fin 14 → Option ℝ),
      inRange scene →
      (∀ (j : Fin 14) (x : ℝ), attrs j = some x →
        (sceneInfo j).minVal ≤ x ∧ x ≤ (sceneInfo j).maxVal) →
      inRange (restoreSceneValues scene attrs)) ∧
    (∀ (a b : SceneParams) (t : ℝ) (mappings : Fin 4 → List MacroTarget) (mv : Fin 4 → ℝ),
      inRange a → inRange b → 0 ≤ t → t ≤ 1 →
      inRange (MacroEngine.apply mappings (SceneParams.morph a b t) mv)) := by
  refine ⟨?_, ?_, ?_⟩
  · intro bank s pIdx v hbank hvr
    unfold setSceneParam
    split
    · rename_i h
      exact bank_update_inRange _ _ _ hbank
        (scene_update_inRange _ _ _ (hbank _)
          (hvr ⟨pIdx.toNat, by omega⟩ (by exact_mod_cast Int.toNat_of_nonneg h.2.2.1)))
    · exact hbank
  · intro scene attrs hs hattrs i
    unfold restoreSceneValues
    dsimp only
    cases hai : attrs i with
    | some v =>
        simp only [hai]
        exact hattrs i v hai
    | none =>
        simp only [hai]
        exact hs i
  · intro a b t mappings mv ha hb ht0 ht1
    exact MacroEngine.apply_inRange _ _ _ (morph_inRange a b t ha hb ht0 ht1)

/-- Witness for C1 (amended): writing the in-range cutoff value 500 into
slot 0 keeps the default bank within ranges. -/
theorem c1_witness :
    bankInRange (setSceneParam (fun _ => SceneParams.createDefault) 0 1 500) := by
  refine c1_amended_in_range_writes.1 (fun _ => SceneParams.createDefault) 0 1 500
    (fun _ => createDefault_inRange) ?_
  intro j hj
  have hv : j.val = 1 := by exact_mod_cast hj
  have hje : j = (1 : Fin 14) := Fin.ext (by simp [hv])
  subst hje
  norm_num [sceneInfo]

/-- Counterexample for C10: a macro target whose scene-parameter index is
14 (outside 0..13) is skipped by MacroEngine::apply — it contributes
nothing — rather than being clamped or defaulted to a valid index: the
same configuration with the index clamped to 13 does change the state. -/
theorem c10_counterexample :
    MacroEngine.apply (fun m => if m = 0 then [⟨14, 1, MacroCurve.linear⟩] else [])
        SceneParams.createDefault (fun m => if m = 0 then 1 else 0) =
      SceneParams.createDefault ∧
    (MacroEngine.apply (fun m => if m = 0 then [⟨13, 1, MacroCurve.linear⟩] else [])
        SceneParams.createDefault (fun m => if m = 0 then 1 else 0)).values 13 ≠
      SceneParams.createDefault.values 13 := by
  have hs : ∀ (mp : Fin 4 → List MacroTarget) (m : Fin 4) (q : SceneParams), m ≠ 0 →
      applyMacroStep mp (fun m => if m = 0 then 1 else 0) m q = q := by
    intro mp m q hm
    refine if_pos ?_
    show (if m = 0 then (1:ℝ) else 0) < 0.001
    rw [if_neg hm]
    norm_num
  have h0 : ∀ (mp : Fin 4 → List MacroTarget) (q : SceneParams),
      applyMacroStep mp (fun m => if m = 0 then 1 else 0) 0 q =
        applyMacroTargets 1 q (mp 0) := by
    intro mp q
    show (if (if (0:Fin 4) = 0 then (1:ℝ) else 0) < 0.001 then q
      else applyMacroTargets (if (0:Fin 4) = 0 then (1:ℝ) else 0) q (mp 0)) = _
    rw [if_pos rfl, if_neg (by norm_num : ¬ (1:ℝ) < 0.001)]
  constructor
  · unfold MacroEngine.apply
    rw [hs _ 3 _ (by decide), hs _ 2 _ (by decide), hs _ 1 _ (by decide), h0]
    show applyOneTarget 1 SceneParams.createDefault ⟨14, 1, MacroCurve.linear⟩ =
      SceneParams.createDefault
    unfold applyOneTarget
    rw [dif_pos (by norm_num : (14:Int) < 0 ∨ 14 ≤ (14:Int))]
  · unfold MacroEngine.apply
    rw [hs _ 3 _ (by decide), hs _ 2 _ (by decide), hs _ 1 _ (by decide), h0]
    show (applyOneTarget 1 SceneParams.createDefault ⟨13, 1, MacroCurve.linear⟩).values 13 ≠
      SceneParams.createDefault.values 13
    unfold applyOneTarget
    rw [dif_neg (by norm_num : ¬ ((13:Int) < 0 ∨ 14 ≤ (13:Int)))]
    have h13 : ∀ hpf : Int.toNat 13 < 14, (⟨Int.toNat 13, hpf⟩ : Fin 14) = 13 :=
      fun hpf => Fin.ext (show Int.toNat 13 = ((13 : Fin 14) : Nat) by decide)
    rw [h13]
    dsimp only
    have hinfo : sceneInfo 13 = ⟨0, 1, 0.8, false⟩ := rfl
    rw [hinfo]
    have hcurve : applyMacroCurve 1 MacroCurve.linear = 1 := by
      simp [applyMacroCurve, clampF_of_mem zero_le_one le_rfl]
    have hdef : SceneParams.createDefault.values 13 = 0.8 := by
      show (sceneInfo 13).defaultVal = 0.8
      rw [hinfo]
    simp only [Bool.false_eq_true, if_false, hcurve, hdef, Function.update_same]
    unfold clampF
    norm_num

/-- C10 (amended): out-of-range indices never raise an error, but the
handling differs per site — raw scene selectors are clamped into 0..7
(and left alone when already in range), a macro target with an index
outside 0..13 is skipped entirely by MacroEngine::apply (it contributes
nothing, it is not clamped or defaulted to another field), and a persisted
curve integer is clamped onto the enumeration 0..3 on load. -/
theorem c10_amended_out_of_range_handling :
    (∀ x : Int, 0 ≤ sceneIdxClamp x ∧ sceneIdxClamp x ≤ 7 ∧
      (0 ≤ x → x ≤ 7 → sceneIdxClamp x = x)) ∧
    (∀ (v : ℝ) (p : SceneParams) (tgt : MacroTarget),
      tgt.sceneParamIndex < 0 ∨ 14 ≤ tgt.sceneParamIndex → applyOneTarget v p tgt = p) ∧
    (∀ n : Int, (n < 0 → loadCurve n = MacroCurve.linear) ∧
      (3 < n → loadCurve n = MacroCurve.sCurve) ∧
      (0 ≤ n → n ≤ 3 → loadCurve n = decodeCurve n)) := by
  refine ⟨?_, ?_, ?_⟩
  · intro x
    unfold sceneIdxClamp
    refine ⟨?_, ?_, ?_⟩
    · split <;> omega
      -- second branch has a nested ite
    · split
      · omega
      · split <;> omega
    · intro h0 h7
      rw [if_neg (by omega), if_neg (by omega)]
  · intro v p tgt h
    unfold applyOneTarget
    rw [dif_pos h]
  · intro n
    refine ⟨?_, ?_, ?_⟩
    · intro hn
      unfold loadCurve
      rw [if_pos hn]
      rfl
    · intro hn
      unfold loadCurve
      rw [if_neg (by omega), if_pos hn]
      rfl
    · intro h0 h3
      unfold loadCurve
      rw [if_neg (by omega), if_neg (by omega)]

/-- Witness for C10 (amended): the raw selector 99 clamps to 7, a target
with index 20 is skipped on the default scene, and the persisted curve
value 7 clamps to the s-curve. -/
theorem c10_witness :
    applyOneTarget 1 SceneParams.createDefault ⟨20, 1, MacroCurve.linear⟩ =
      SceneParams.createDefault ∧ loadCurve 7 = MacroCurve.sCurve := by
  refine ⟨c10_amended_out_of_range_handling.2.1 1 SceneParams.createDefault
    ⟨20, 1, MacroCurve.linear⟩ (Or.inr (by norm_num)), ?_⟩
  exact (c10_amended_out_of_range_handling.2.2 7).2.1 (by norm_num)

-- Characterisation of the delay-buffer write of one process sample.

lemma delay_write_value (st : DelayState) (input : Fin 2 → ℝ) (ch : Fin 2) :
    (delaySampleStep st input).1.delayLine ch (st.writePos ch) =
      input ch +
        (if st.isPingPong = true then
          (((st.toneLPF ch).processSample (delayedOf st ch)).1.processSample
              (delayedOf st (otherChan ch))).2 * st.fb
         else
          ((st.toneLPF ch).processSample (delayedOf st ch)).2 * st.fb) := by
  fin_cases ch <;> cases hpp : st.isPingPong <;>
    simp [delaySampleStep, delayChannelStep, delayedOf, delayCurrent, readDelayed, hpp]

/-- C9 (amended): the value written at channel ch's write cursor is the
input plus the feedback-scaled output of channel ch's tone filter, where
without ping-pong the filter processes the channel's own delayed sample
once, but with ping-pong the filter first processes the channel's own
delayed sample (output discarded, state advanced) and then the opposite
channel's delayed sample, and that second output is the one scaled and
written. -/
theorem c9_amended_feedback_path (st : DelayState) (input : Fin 2 → ℝ) (ch : Fin 2) :
    (delaySampleStep st input).1.delayLine ch (st.writePos ch) =
      input ch +
        (if st.isPingPong = true then
          (((st.toneLPF ch).processSample (delayedOf st ch)).1.processSample
              (delayedOf st (otherChan ch))).2 * st.fb
         else
          ((st.toneLPF ch).processSample (delayedOf st ch)).2 * st.fb) :=
  delay_write_value st input ch

/-- A concrete ping-pong delay state: 10-slot buffer, write cursors at 5,
a settled delay of 5 samples, feedback 0.5, tone filters with cutoff a
quarter of the sample rate (so the TPT coefficient is tan(pi/4) = 1) and
resonance 0.5, and a single 1.0 impulse sitting in channel 0's buffer at
the current read position. -/
noncomputable def pingPongTestState : DelayState :=
  ⟨4, 10, fun c pos => if c = 0 ∧ pos = 0 then 1 else 0, fun _ => 5, 0.5, 1, true,
   fun _ => ⟨4, 1, 0.5, 0, 0⟩, ⟨5, 5, 0, 0, 0⟩⟩

/-- Counterexample for C9: in ping-pong mode the value actually written
into channel 0's buffer is 1/4, whereas the claimed value — input plus
the opposite channel's delayed sample passed once through channel 0's
tone filter, scaled by feedback — is 0: the extra state-advancing filter
call on the own channel's delayed sample changes the result. -/
theorem c9_counterexample :
    (delaySampleStep pingPongTestState (fun _ => 0)).1.delayLine 0
        (pingPongTestState.writePos 0) = 1/4 ∧
    (fun _ => (0:ℝ)) 0 + ((pingPongTestState.toneLPF 0).processSample
        (delayedOf pingPongTestState (otherChan 0))).2 * pingPongTestState.fb = 0 ∧
    (1/4 : ℝ) ≠ 0 := by
  have gval : Real.tan (Real.pi * (1:ℝ) / 4) = 1 := by
    rw [show Real.pi * (1:ℝ) / 4 = Real.pi / 4 by ring]
    exact Real.tan_pi_div_four
  have hd0 : delayedOf pingPongTestState 0 = 1 := by
    unfold delayedOf delayCurrent pingPongTestState readDelayed Smoother.getNextValue
    norm_num
  have hd1 : delayedOf pingPongTestState (otherChan 0) = 0 := by
    unfold delayedOf delayCurrent pingPongTestState readDelayed Smoother.getNextValue otherChan
    norm_num
  have hp1 : (⟨4, 1, 0.5, 0, 0⟩ : TPTFilter).processSample 1 =
      ((⟨4, 1, 0.5, 1/2, 1/2⟩ : TPTFilter), 1/4) := by
    unfold TPTFilter.processSample
    rw [gval]
    norm_num
  have hp2 : (⟨4, 1, 0.5, 1/2, 1/2⟩ : TPTFilter).processSample 0 =
      ((⟨4, 1, 0.5, (-1:ℝ)/2 + 0, 0 + 1/2⟩ : TPTFilter), 1/2) := by
    unfold TPTFilter.processSample
    rw [gval]
    norm_num
  have hp0 : (⟨4, 1, 0.5, 0, 0⟩ : TPTFilter).processSample 0 =
      ((⟨4, 1, 0.5, 0, 0⟩ : TPTFilter), 0) := by
    unfold TPTFilter.processSample
    rw [gval]
    norm_num
  refine ⟨?_, ?_, by norm_num⟩
  · rw [delay_write_value, hd0, hd1]
    simp only [show pingPongTestState.isPingPong = true from rfl,
      show pingPongTestState.toneLPF 0 = ⟨4, 1, 0.5, 0, 0⟩ from rfl,
      show pingPongTestState.fb = 0.5 from rfl, if_true, hp1, hp2]
    norm_num
  · rw [hd1]
    simp only [show pingPongTestState.toneLPF 0 = ⟨4, 1, 0.5, 0, 0⟩ from rfl,
      show pingPongTestState.fb = 0.5 from rfl, hp0]
    norm_num
